import Mathlib

/-! MyMailApp: the vacation auto-responder of `src/app.js`.

A shallow embedding of the polling loop (`processEmails`), the reply routine
(`sendReply`), the sender extraction (`extractSenderEmail`) and the label
routine (`createLabelIfNotExists`), followed by the properties established
about them.

Conventions of the embedding.

* A JavaScript value that may be `undefined` is an `Option`; `none` is
  `undefined`.
* A computation that may throw (or an `async` function whose promise may
  reject) returns `Except JsError _`; `try { .. } catch` is a `match` on it.
* The Gmail client (`gmail.users.*`) is the environment: an explicit state
  `Gmail` that every call threads through.  Each call is recorded in a request
  log, and the environment may reject any call (field `fault`), which makes
  the awaited promise reject.
* `Math.random()` is an argument `r : ℚ`, the value of the double it returns;
  arithmetic on numbers rounds its exact result with `toDouble`.  A timer set
  by `setTimeout` is a value of type `Scheduled`.
* Console output is not modelled.
-/

namespace MyMailApp

/-! ## Data model -/

/-- One entry of `message.data.payload.headers`. -/
structure Header where
  name : String
  value : String
deriving DecidableEq, Repr

/-- The `payload` object of a fetched message; `headers` may be absent. -/
structure Payload where
  headers : Option (List Header)
deriving DecidableEq, Repr

/-- The `data` object of the response of `gmail.users.messages.get`, restricted to the fields the
program reads (`data.subject`, `data.payload`), together with the label set the mailbox stores for
the message. -/
structure MessageData where
  subject : Option String
  payload : Option Payload
  labelIds : Option (List String)
deriving DecidableEq, Repr

/-- The response object of `gmail.users.messages.get`: `message.data`. -/
structure Message where
  data : MessageData
deriving DecidableEq, Repr

/-- An element of `response.data.messages` as returned by `gmail.users.messages.list`: the fields
the program reads are `id` and `labelIds`. -/
structure MessageRef where
  id : String
  labelIds : Option (List String)
deriving DecidableEq, Repr

/-- An element of `labels.data.labels`. -/
structure Label where
  id : String
  name : String
deriving DecidableEq, Repr

/-- The calls the program makes on the Gmail client. -/
inductive Request where
  | messagesList (labelIds : List String)
  | messagesGet (id : String)
  | messagesSend (raw : String)
  | labelsList
  | labelsCreate (name : String)
  | messagesModify (id : String) (addLabelIds removeLabelIds : List String)
deriving DecidableEq, Repr

/-- What a `catch (error)` clause can receive. -/
inductive JsError where
  | gatewayError (req : Request)
  | typeError
deriving DecidableEq, Repr

/-! ## The candidate filter and the delay of `processEmails` -/

/-- JavaScript truthiness of `message.labelIds`: `undefined` is falsy, every array (the empty one
included) is truthy. -/
def truthyLabelIds : Option (List String) → Bool
  | none => false
  | some _ => true

/-- Line 133: `messages.filter((message) => !message.labelIds)`. -/
def firstTimeMessages (messages : List MessageRef) : List MessageRef :=
  messages.filter (fun message => !truthyLabelIds message.labelIds)

/-- Rounding of a rational to the nearest integer, ties to the even one. -/
def roundHalfEven (t : ℚ) : ℤ :=
  if t - ⌊t⌋ < 1 / 2 then ⌊t⌋
  else if 1 / 2 < t - ⌊t⌋ then ⌊t⌋ + 1
  else if ⌊t⌋ % 2 = 0 then ⌊t⌋ else ⌊t⌋ + 1

/-- The exponent of the binade of `x` in the double format: `2 ^ e ≤ |x| < 2 ^ (e + 1)`, and
`-1022` throughout the subnormal range. -/
def binade (x : ℚ) : ℤ :=
  max (Int.log 2 |x|) (-1022)

/-- The value of the JavaScript number (IEEE 754 binary64) that an arithmetic operation with exact
result `x` produces: `x` rounded to 53 significant bits, to nearest, ties to even.  Overflow to
`Infinity` (from `2 ^ 1024` on) is not modelled; the program stays below `2 ^ 17`. -/
def toDouble (x : ℚ) : ℚ :=
  roundHalfEven (x / 2 ^ (binade x - 52)) * 2 ^ (binade x - 52)

/-- Line 136: `Math.floor(Math.random() * (120 - 45 + 1) + 45)`, the draw being the double `r`.
The product and the sum are each rounded to a double; `120 - 45 + 1` and `Math.floor` are exact. -/
def randomInterval (r : ℚ) : ℤ :=
  ⌊toDouble (toDouble (r * (120 - 45 + 1)) + 45)⌋

/-- The delay formula as the specification writes it, `floor(random*(120-45+1))+45`, over exact
rationals. -/
def specInterval (r : ℚ) : ℤ :=
  ⌊r * (120 - 45 + 1)⌋ + 45

/-- What a timer runs when it fires. -/
inductive Callback where
  /-- Line 150: `setTimeout(processEmails, 60000)`. -/
  | processEmails
  /-- Lines 139-146: the `async () => { for .. sendReply ..; processEmails(); }` closure over
  `firstTimeMessages`. -/
  | replyBatch (candidates : List MessageRef)
deriving DecidableEq, Repr

/-- How one invocation of `processEmails` ends. -/
inductive Scheduled where
  /-- The `catch` clause of line 152 ran: the error is logged, no timer is set and `processEmails`
  is not called. -/
  | nothing (error : JsError)
  /-- A call `setTimeout(callback, ms)`. -/
  | timeout (callback : Callback) (ms : ℤ)
deriving DecidableEq, Repr

/-- The body of `processEmails` after `await listMessages()`: `listing` is the outcome of that
await (a rejection, or the value of `response.data.messages`, which is `undefined` when the field
is absent). -/
def processListing (listing : Except JsError (Option (List MessageRef))) (r : ℚ) : Scheduled :=
  match listing with
  | .error e => .nothing e
  | .ok none => .nothing .typeError
  | .ok (some messages) =>
    let firstTime := firstTimeMessages messages
    if firstTime.length > 0 then
      .timeout (.replyBatch firstTime) (randomInterval r * 1000)
    else
      .timeout .processEmails 60000

/-! ## Sender extraction -/

/-- The method `String.prototype.toLowerCase`, modelled on the letters `A`-`Z`.  No character
outside `A`-`Z` lower-cases to one of `f`, `r`, `o`, `m`, so the comparison of line 89 with the
literal `'from'` has the same outcome as with the full Unicode lower-casing. -/
def toLowerCase (s : String) : String :=
  String.mk (s.data.map Char.toLower)

/-- Line 89: the predicate `header => header.name.toLowerCase() === 'from'`. -/
def isFromHeader (header : Header) : Bool :=
  toLowerCase header.name == "from"

/-- Lines 88-96, the body of the `try` block of `extractSenderEmail`.  Reading `.headers` of an
absent `payload`, or calling `.find` on absent `headers`, throws a `TypeError`. -/
def extractSenderEmailBody (message : Message) : Except JsError (Option String) :=
  match message.data.payload with
  | none => .error .typeError
  | some payload =>
    match payload.headers with
    | none => .error .typeError
    | some headers =>
      match headers.find? isFromHeader with
      | some fromHeader => .ok (some fromHeader.value)
      | none => .ok none

/-- Lines 86-102: `extractSenderEmail`; the `catch` clause returns `undefined`. -/
def extractSenderEmail (message : Message) : Except JsError (Option String) :=
  match extractSenderEmailBody message with
  | .ok sender => .ok sender
  | .error _ => .ok none

/-! ## Text of the reply -/

/-- Interpolation of a possibly undefined string in a template literal. -/
def interpolate : Option String → String
  | some s => s
  | none => "undefined"

/-- Line 46: the template literal bound to `replyText`. -/
def replyText (subject : Option String) : String :=
  "Thank you for your email on \"" ++ interpolate subject ++
    "\". I\x27m currently out on vacation and will get back to you as soon as possible."

/-- Line 58: the template literal passed to `Buffer.from`. -/
def rawReply (sender : String) (subject : Option String) : String :=
  "To: " ++ sender ++ "\r\nSubject: Re: " ++ interpolate subject ++ "\r\n\r\n" ++ replyText subject

/-- The UTF-8 bytes of a code point (RFC 3629). -/
def utf8EncodeScalar (v : Nat) : List Nat :=
  if v < 128 then [v]
  else if v < 2048 then [192 + v / 64, 128 + v % 64]
  else if v < 65536 then [224 + v / 4096, 128 + v / 64 % 64, 128 + v % 64]
  else [240 + v / 262144, 128 + v / 4096 % 64, 128 + v / 64 % 64, 128 + v % 64]

/-- The bytes of `Buffer.from(text)`: the UTF-8 encoding of the text. -/
def utf8Bytes (text : String) : List Nat :=
  text.data.flatMap (fun c => utf8EncodeScalar c.toNat)

/-- A continuation byte of UTF-8: `10xxxxxx`. -/
def isContinuation (b : Nat) : Bool :=
  128 ≤ b && b < 192

/-- Decoding of UTF-8 bytes into code points. -/
def utf8DecodeScalars : List Nat → Option (List Nat)
  | [] => some []
  | b0 :: rest =>
    if b0 < 128 then (utf8DecodeScalars rest).map (b0 :: ·)
    else if b0 < 192 then none
    else match rest with
      | [] => none
      | b1 :: rest1 =>
        if !isContinuation b1 then none
        else if b0 < 224 then
          (utf8DecodeScalars rest1).map (((b0 - 192) * 64 + (b1 - 128)) :: ·)
        else match rest1 with
          | [] => none
          | b2 :: rest2 =>
            if !isContinuation b2 then none
            else if b0 < 240 then
              (utf8DecodeScalars rest2).map
                (((b0 - 224) * 4096 + (b1 - 128) * 64 + (b2 - 128)) :: ·)
            else match rest2 with
              | [] => none
              | b3 :: rest3 =>
                if !isContinuation b3 || 248 ≤ b0 then none
                else
                  (utf8DecodeScalars rest3).map
                    (((b0 - 240) * 262144 + (b1 - 128) * 4096 + (b2 - 128) * 64 + (b3 - 128)) :: ·)

/-- Decoding of UTF-8 bytes into a string. -/
def utf8Decode (bytes : List Nat) : Option String :=
  (utf8DecodeScalars bytes).map (fun scalars => String.mk (scalars.map Char.ofNat))

/-- The Base64 alphabet of RFC 4648. -/
def base64Alphabet : List Char :=
  "ABCDEFGHIJKLMNOPQRSTUVWXYZabcdefghijklmnopqrstuvwxyz0123456789+/".data

/-- The character of a 6-bit value. -/
def base64Char (n : Nat) : Char :=
  base64Alphabet.getD n 'A'

/-- The 6-bit value of a character of the alphabet. -/
def base64Value (c : Char) : Option Nat :=
  if c ∈ base64Alphabet then some (base64Alphabet.indexOf c) else none

/-- The method `buffer.toString('base64')`: three bytes give four characters, the last group is
padded with `=`. -/
def toBase64 : List Nat → List Char
  | [] => []
  | [a] => [base64Char (a / 4), base64Char (a % 4 * 16), '=', '=']
  | [a, b] => [base64Char (a / 4), base64Char (a % 4 * 16 + b / 16), base64Char (b % 16 * 4), '=']
  | a :: b :: c :: rest =>
    base64Char (a / 4) :: base64Char (a % 4 * 16 + b / 16) :: base64Char (b % 16 * 4 + c / 64) ::
      base64Char (c % 64) :: toBase64 rest

/-- Decoding of padded Base64, the inverse the receiving side applies to `raw`. -/
def fromBase64 : List Char → Option (List Nat)
  | [] => some []
  | w :: x :: y :: z :: rest =>
    match base64Value w, base64Value x with
    | some p, some q =>
      if y = '=' ∧ z = '=' ∧ rest = [] then some [p * 4 + q / 16]
      else match base64Value y with
        | none => none
        | some s =>
          if z = '=' ∧ rest = [] then some [p * 4 + q / 16, q % 16 * 16 + s / 4]
          else match base64Value z, fromBase64 rest with
            | some t, some bytes =>
              some ((p * 4 + q / 16) :: (q % 16 * 16 + s / 4) :: (s % 4 * 64 + t) :: bytes)
            | _, _ => none
    | _, _ => none
  | _ => none

/-- Lines 57-59: `Buffer.from(text).toString('base64')`. -/
def encodeRaw (text : String) : String :=
  String.mk (toBase64 (utf8Bytes text))

/-- What the receiving side reads in `raw`: the Base64 decoding, then the UTF-8 decoding. -/
def decodeRaw (raw : String) : Option String :=
  (fromBase64 raw.data).bind utf8Decode

/-! ## The Gmail client as an environment -/

/-- The state of the mail account as seen through the client, the log of the calls made, and the
failures the environment injects. -/
structure Gmail where
  /-- The value of `response.data.messages` that `messages.list` answers with. -/
  listing : Option (List MessageRef)
  /-- The stored messages, by id. -/
  messages : List (String × MessageData)
  /-- The labels of the account. -/
  labels : List Label
  /-- The `raw` payloads of the accepted `messages.send` calls, oldest first. -/
  outbox : List String
  /-- Every call made so far, oldest first. -/
  log : List Request
  /-- The environment rejects the call `req`, made after `n` earlier calls, when `fault n req`. -/
  fault : Nat → Request → Bool

/-- The account after a call has been recorded. -/
def Gmail.record (g : Gmail) (req : Request) : Gmail :=
  { g with log := g.log ++ [req] }

/-- Whether the environment rejects the call made now. -/
def Gmail.rejects (g : Gmail) (req : Request) : Bool :=
  g.fault g.log.length req

/-- The stored data of a message. -/
def Gmail.find (g : Gmail) (id : String) : Option MessageData :=
  g.messages.lookup id

/-- The call `gmail.users.messages.list`. -/
def Gmail.messagesList (g : Gmail) (labelIds : List String) :
    Gmail × Except JsError (Option (List MessageRef)) :=
  let req := Request.messagesList labelIds
  if g.rejects req then (g.record req, .error (.gatewayError req))
  else (g.record req, .ok g.listing)

/-- The call `gmail.users.messages.get`; an unknown id is an error of the gateway. -/
def Gmail.messagesGet (g : Gmail) (id : String) : Gmail × Except JsError Message :=
  let req := Request.messagesGet id
  if g.rejects req then (g.record req, .error (.gatewayError req))
  else match g.find id with
    | none => (g.record req, .error (.gatewayError req))
    | some data => (g.record req, .ok ⟨data⟩)

/-- The call `gmail.users.messages.send`. -/
def Gmail.messagesSend (g : Gmail) (raw : String) : Gmail × Except JsError Unit :=
  let req := Request.messagesSend raw
  if g.rejects req then (g.record req, .error (.gatewayError req))
  else ({ g.record req with outbox := g.outbox ++ [raw] }, .ok ())

/-- The call `gmail.users.labels.list`. -/
def Gmail.labelsList (g : Gmail) : Gmail × Except JsError (List Label) :=
  let req := Request.labelsList
  if g.rejects req then (g.record req, .error (.gatewayError req))
  else (g.record req, .ok g.labels)

/-- The call `gmail.users.labels.create`: the account gains a label of the given name, with an
identifier assigned by the provider. -/
def Gmail.labelsCreate (g : Gmail) (name : String) : Gmail × Except JsError Unit :=
  let req := Request.labelsCreate name
  if g.rejects req then (g.record req, .error (.gatewayError req))
  else
    ({ g.record req with
        labels := g.labels ++ [{ id := "Label_" ++ toString g.labels.length, name := name }] },
      .ok ())

/-- The label set of a message after a `modify`: the removed labels go, the added ones are
present. -/
def modifyLabelIds (old : Option (List String)) (add remove : List String) : Option (List String) :=
  let kept := (old.getD []).filter (fun l => !remove.contains l)
  some (kept ++ add.filter (fun l => !kept.contains l))

/-- The stored messages after a `modify` of the message `id`. -/
def modifyStored (id : String) (add remove : List String) :
    List (String × MessageData) → List (String × MessageData)
  | [] => []
  | (key, data) :: rest =>
    if key == id then
      (key, { data with labelIds := modifyLabelIds data.labelIds add remove }) :: rest
    else (key, data) :: modifyStored id add remove rest

/-- The call `gmail.users.messages.modify`; an unknown id is an error of the gateway. -/
def Gmail.messagesModify (g : Gmail) (id : String) (addLabelIds removeLabelIds : List String) :
    Gmail × Except JsError Unit :=
  let req := Request.messagesModify id addLabelIds removeLabelIds
  if g.rejects req then (g.record req, .error (.gatewayError req))
  else match g.find id with
    | none => (g.record req, .error (.gatewayError req))
    | some _ =>
      ({ g.record req with messages := modifyStored id addLabelIds removeLabelIds g.messages },
        .ok ())

/-! ## The routines of `src/app.js` -/

/-- Lines 15-27: `listMessages`; the `catch` clause logs and rethrows. -/
def listMessages (g : Gmail) : Gmail × Except JsError (Option (List MessageRef)) :=
  match g.messagesList ["INBOX"] with
  | (g1, .ok messages) => (g1, .ok messages)
  | (g1, .error e) => (g1, .error e)

/-- Lines 104-125: `createLabelIfNotExists`.  The function has no `return` statement: its promise
resolves to `undefined` (here `none`), and the `catch` clause logs and rethrows. -/
def createLabelIfNotExists (g : Gmail) (labelName : String) :
    Gmail × Except JsError (Option String) :=
  match g.labelsList with
  | (g1, .error e) => (g1, .error e)
  | (g1, .ok labels) =>
    let labelExists := labels.any (fun label => label.name == labelName)
    if !labelExists then
      match g1.labelsCreate labelName with
      | (g2, .error e) => (g2, .error e)
      | (g2, .ok _) => (g2, .ok none)
    else (g1, .ok none)

/-- Truthiness of `sender`: `undefined` and the empty string are falsy. -/
def truthySender : Option String → Bool
  | none => false
  | some s => s != ""

/-- Lines 29-83: `sendReply`; the `catch` clause logs and rethrows. -/
def sendReply (g : Gmail) (messageId : String) : Gmail × Except JsError Unit :=
  match g.messagesGet messageId with
  | (g1, .error e) => (g1, .error e)
  | (g1, .ok message) =>
    let subject := message.data.subject
    match extractSenderEmail message with
    | .error e => (g1, .error e)
    | .ok sender =>
      if !truthySender sender then (g1, .ok ())
      else
        match g1.messagesSend (encodeRaw (rawReply (interpolate sender) subject)) with
        | (g2, .error e) => (g2, .error e)
        | (g2, .ok _) =>
          let labelName := "VacationReplies"
          match createLabelIfNotExists g2 labelName with
          | (g3, .error e) => (g3, .error e)
          | (g3, .ok _) =>
            match g3.messagesModify messageId [labelName] ["INBOX"] with
            | (g4, .error e) => (g4, .error e)
            | (g4, .ok _) => (g4, .ok ())

/-- Lines 140-142: the loop `for (const message of firstTimeMessages) await sendReply(message.id)`.
There is no `try` around the call: a rejection of `sendReply` leaves the loop. -/
def sendReplies (g : Gmail) : List MessageRef → Gmail × Except JsError Unit
  | [] => (g, .ok ())
  | message :: rest =>
    match sendReply g message.id with
    | (g1, .error e) => (g1, .error e)
    | (g1, .ok _) => sendReplies g1 rest

/-- How the timer callback of lines 139-146 ends. -/
inductive BatchEnd where
  /-- The loop completed and line 145 called `processEmails()`. -/
  | startsProcessEmails
  /-- The promise of the callback rejected with the error: line 145 was not reached. -/
  | rejected (error : JsError)
deriving DecidableEq, Repr

/-- Lines 139-146: the `async` closure given to `setTimeout`. -/
def replyBatch (g : Gmail) (candidates : List MessageRef) : Gmail × BatchEnd :=
  match sendReplies g candidates with
  | (g1, .ok _) => (g1, .startsProcessEmails)
  | (g1, .error e) => (g1, .rejected e)

/-- Lines 128-155: one invocation of `processEmails`, up to the timer it sets. -/
def processEmails (g : Gmail) (r : ℚ) : Gmail × Scheduled :=
  match listMessages g with
  | (g1, listing) => (g1, processListing listing r)

/-! ## Reporting of rejected calls -/

/-- The error of a result, if any. -/
def errorOf {α : Type} : Except JsError α → Option JsError
  | .ok _ => none
  | .error e => some e

/-- Between the states `g` and `g1` the environment is unchanged, calls were only appended to the
log, and every appended call that the environment rejected is the error `err`. -/
def Reports (g g1 : Gmail) (err : Option JsError) : Prop :=
  g1.fault = g.fault ∧ ∃ calls, g1.log = g.log ++ calls ∧
    ∀ k req, calls[k]? = some req → g.fault (g.log.length + k) req = true →
      err = some (.gatewayError req)

/-! ## Sample mailboxes -/

/-- A mailbox with three unlabelled inbox messages and no label yet. -/
def sampleMailbox (fault : Nat → Request → Bool) : Gmail where
  listing := some [⟨"m1", none⟩, ⟨"m2", none⟩, ⟨"m3", none⟩]
  messages :=
    [("m1", ⟨some "Hi", some ⟨some [⟨"From", "a@x.com"⟩]⟩, some ["INBOX"]⟩),
     ("m2", ⟨some "Yo", some ⟨some [⟨"From", "b@x.com"⟩]⟩, some ["INBOX"]⟩),
     ("m3", ⟨some "Ok", some ⟨some [⟨"From", "c@x.com"⟩]⟩, some ["INBOX"]⟩)]
  labels := []
  outbox := []
  log := []
  fault := fault

/-- A mailbox whose only listed message is already labelled, and whose only stored message has
no `From` header. -/
def quietMailbox : Gmail where
  listing := some [⟨"m2", some ["VacationReplies"]⟩]
  messages := [("m4", ⟨some "Hi", some ⟨some [⟨"To", "me@y.org"⟩]⟩, some ["INBOX"]⟩)]
  labels := []
  outbox := []
  log := []
  fault := fun _ _ => false

/-- A mailbox whose listing answers without a `messages` field, as Gmail does for an inbox
without messages (`{data: {resultSizeEstimate: 0}}`). -/
def emptyInbox : Gmail where
  listing := none
  messages := []
  labels := []
  outbox := []
  log := []
  fault := fun _ _ => false

/-- The environment that rejects the call made after `n` earlier calls, and no other. -/
def callFails (n : Nat) : Nat → Request → Bool :=
  fun i _ => i == n

/-- The environment that accepts every call. -/
def noFault : Nat → Request → Bool :=
  fun _ _ => false

/-- The environment that rejects the first call only. -/
def firstCallFails : Nat → Request → Bool :=
  fun n _ => n == 0

/-- The environment that rejects the seventh call only: in a batch over `sampleMailbox` that is
the `messages.send` of the second candidate. -/
def seventhCallFails : Nat → Request → Bool :=
  fun n _ => n == 6

/-! ## Auxiliary facts -/

theorem mem_firstTimeMessages (messages : List MessageRef) (m : MessageRef) :
    m ∈ firstTimeMessages messages ↔ m ∈ messages ∧ m.labelIds = none := by
  unfold firstTimeMessages
  rw [List.mem_filter]
  cases h : m.labelIds <;> simp [truthyLabelIds]

/-! ### Double arithmetic -/

theorem roundHalfEven_mem (t : ℚ) : roundHalfEven t = ⌊t⌋ ∨ roundHalfEven t = ⌊t⌋ + 1 := by
  unfold roundHalfEven
  split_ifs <;> simp

theorem roundHalfEven_ge (N : ℤ) (t : ℚ) (h : (N : ℚ) ≤ t) : N ≤ roundHalfEven t := by
  have hf : N ≤ ⌊t⌋ := Int.le_floor.2 h
  rcases roundHalfEven_mem t with e | e <;> rw [e] <;> omega

theorem roundHalfEven_le (N : ℤ) (t : ℚ) (h : t ≤ (N : ℚ)) : roundHalfEven t ≤ N := by
  rcases lt_or_eq_of_le h with hlt | heq
  · have hf : ⌊t⌋ < N := Int.floor_lt.2 hlt
    rcases roundHalfEven_mem t with e | e <;> rw [e] <;> omega
  · subst heq
    unfold roundHalfEven
    simp

theorem roundHalfEven_le_pred (N : ℤ) (t : ℚ) (h : t < (N : ℚ) - 1 / 2) :
    roundHalfEven t ≤ N - 1 := by
  have hf : ⌊t⌋ < N := Int.floor_lt.2 (by linarith)
  by_cases hlt : ⌊t⌋ < N - 1
  · rcases roundHalfEven_mem t with e | e <;> rw [e] <;> omega
  · have hfe : ⌊t⌋ = N - 1 := by omega
    unfold roundHalfEven
    have : t - (⌊t⌋ : ℚ) < 1 / 2 := by
      rw [hfe]; push_cast; linarith
    rw [if_pos this]
    omega

theorem binade_eq (x : ℚ) (e : ℤ) (he : -1022 ≤ e) (h1 : (2 : ℚ) ^ e ≤ |x|)
    (h2 : |x| < (2 : ℚ) ^ (e + 1)) : binade x = e := by
  have hpos : 0 < |x| := lt_of_lt_of_le (by positivity) h1
  have hlog : Int.log 2 |x| = e := by
    apply le_antisymm
    · have := (Int.lt_zpow_iff_log_lt (R := ℚ) (b := 2) (by norm_num) hpos).1
        (by exact_mod_cast h2)
      omega
    · exact (Int.zpow_le_iff_le_log (R := ℚ) (b := 2) (by norm_num) hpos).1 (by exact_mod_cast h1)
  unfold binade
  rw [hlog]
  exact max_eq_left he

theorem binade_le (x : ℚ) (k : ℤ) (hk : 0 ≤ k) (h : |x| < (2 : ℚ) ^ (k + 1)) : binade x ≤ k := by
  unfold binade
  apply max_le _ (by omega)
  rcases eq_or_lt_of_le (abs_nonneg x) with h0 | hpos
  · rw [← h0, Int.log_of_right_le_zero _ (le_refl _)]
    exact hk
  · have := (Int.lt_zpow_iff_log_lt (R := ℚ) (b := 2) (by norm_num) hpos).1 (by exact_mod_cast h)
    omega

theorem grid_div (k e : ℤ) (hek : e ≤ k) (N : ℤ) :
    ∃ M : ℤ, (N : ℚ) * 2 ^ (k - 52) / 2 ^ (e - 52) = (M : ℚ) := by
  refine ⟨N * 2 ^ (k - e).toNat, ?_⟩
  have h2 : (2 : ℚ) ^ (k - 52) = 2 ^ (e - 52) * 2 ^ (k - e) := by
    rw [← zpow_add₀ (by norm_num)]
    congr 1
    omega
  have h3 : (2 : ℚ) ^ (k - e) = ((2 ^ (k - e).toNat : ℤ) : ℚ) := by
    have : k - e = ((k - e).toNat : ℤ) := (Int.toNat_of_nonneg (by omega)).symm
    conv_lhs => rw [this]
    rw [zpow_natCast]
    push_cast
    rfl
  have hpos : (2 : ℚ) ^ (e - 52) ≠ 0 := by positivity
  rw [h2, h3]
  push_cast
  field_simp
  ring

theorem toDouble_le_grid (x : ℚ) (k : ℤ) (hk : binade x ≤ k) (N : ℤ)
    (h : x ≤ (N : ℚ) * 2 ^ (k - 52)) : toDouble x ≤ (N : ℚ) * 2 ^ (k - 52) := by
  obtain ⟨M, hM⟩ := grid_div k (binade x) hk N
  have hpos : (0 : ℚ) < 2 ^ (binade x - 52) := by positivity
  have h1 : x / 2 ^ (binade x - 52) ≤ (M : ℚ) := by
    rw [← hM]
    exact div_le_div_of_nonneg_right h hpos.le
  have h2 : ((roundHalfEven (x / 2 ^ (binade x - 52)) : ℤ) : ℚ) ≤ (M : ℚ) := by
    exact_mod_cast roundHalfEven_le M _ h1
  unfold toDouble
  calc ((roundHalfEven (x / 2 ^ (binade x - 52)) : ℤ) : ℚ) * 2 ^ (binade x - 52)
      ≤ (M : ℚ) * 2 ^ (binade x - 52) := mul_le_mul_of_nonneg_right h2 hpos.le
    _ = (N : ℚ) * 2 ^ (k - 52) := by rw [← hM]; field_simp

theorem toDouble_ge_grid (x : ℚ) (k : ℤ) (hk : binade x ≤ k) (N : ℤ)
    (h : (N : ℚ) * 2 ^ (k - 52) ≤ x) : (N : ℚ) * 2 ^ (k - 52) ≤ toDouble x := by
  obtain ⟨M, hM⟩ := grid_div k (binade x) hk N
  have hpos : (0 : ℚ) < 2 ^ (binade x - 52) := by positivity
  have h1 : (M : ℚ) ≤ x / 2 ^ (binade x - 52) := by
    rw [← hM]
    exact div_le_div_of_nonneg_right h hpos.le
  have h2 : (M : ℚ) ≤ ((roundHalfEven (x / 2 ^ (binade x - 52)) : ℤ) : ℚ) := by
    exact_mod_cast roundHalfEven_ge M _ h1
  unfold toDouble
  calc (N : ℚ) * 2 ^ (k - 52) = (M : ℚ) * 2 ^ (binade x - 52) := by rw [← hM]; field_simp
    _ ≤ ((roundHalfEven (x / 2 ^ (binade x - 52)) : ℤ) : ℚ) * 2 ^ (binade x - 52) :=
        mul_le_mul_of_nonneg_right h2 hpos.le

theorem toDouble_grid (k : ℤ) (N : ℤ) (hk : binade ((N : ℚ) * 2 ^ (k - 52)) ≤ k) :
    toDouble ((N : ℚ) * 2 ^ (k - 52)) = (N : ℚ) * 2 ^ (k - 52) :=
  le_antisymm (toDouble_le_grid _ k hk N (le_refl _)) (toDouble_ge_grid _ k hk N (le_refl _))

theorem toDouble_le_pred (x : ℚ) (e : ℤ) (he : binade x = e) (N : ℤ)
    (h : x < ((N : ℚ) - 1 / 2) * 2 ^ (e - 52)) : toDouble x ≤ ((N : ℚ) - 1) * 2 ^ (e - 52) := by
  have hpos : (0 : ℚ) < 2 ^ (e - 52) := by positivity
  have h1 : x / 2 ^ (e - 52) < (N : ℚ) - 1 / 2 := by
    rw [div_lt_iff₀ hpos]
    exact h
  have h2 : ((roundHalfEven (x / 2 ^ (e - 52)) : ℤ) : ℚ) ≤ (N : ℚ) - 1 := by
    exact_mod_cast roundHalfEven_le_pred N _ h1
  unfold toDouble
  rw [he]
  exact mul_le_mul_of_nonneg_right h2 hpos.le

theorem double_le_pred_one (r : ℚ) (hd : toDouble r = r) (h0 : 1 / 2 ≤ r) (h1 : r < 1) :
    r ≤ 1 - 2 ^ (-53 : ℤ) := by
  have habs : |r| = r := abs_of_nonneg (by linarith)
  have hb : binade r = -1 := by
    apply binade_eq r (-1) (by norm_num)
    · rw [habs]; norm_num; linarith
    · rw [habs]; norm_num; exact h1
  unfold toDouble at hd
  rw [hb] at hd
  norm_num at hd
  set n : ℤ := roundHalfEven (r * 9007199254740992) with hn
  have hr : r = (n : ℚ) / 9007199254740992 := by
    rw [← hd]; field_simp
  have hlt : (n : ℚ) < 9007199254740992 := by
    rw [hr, div_lt_one (by norm_num)] at h1
    exact h1
  have hlt2 : n < 9007199254740992 := by exact_mod_cast hlt
  have hle : (n : ℚ) ≤ 9007199254740991 := by
    have : n ≤ 9007199254740991 := by omega
    exact_mod_cast this
  rw [hr]
  norm_num
  rw [div_le_div_iff₀ (by norm_num) (by norm_num)]
  linarith

theorem product_le (r : ℚ) (hd : toDouble r = r) (h0 : 0 ≤ r) (h1 : r < 1) :
    0 ≤ toDouble (r * (120 - 45 + 1)) ∧
      toDouble (r * (120 - 45 + 1)) ≤ 76 - 2 ^ (-46 : ℤ) := by
  have hx0 : 0 ≤ r * (120 - 45 + 1) := by nlinarith
  have hx1 : r * (120 - 45 + 1) < 76 := by nlinarith
  have habs : |r * (120 - 45 + 1)| = r * (120 - 45 + 1) := abs_of_nonneg hx0
  have hb6 : binade (r * (120 - 45 + 1)) ≤ 6 := by
    apply binade_le _ 6 (by norm_num)
    rw [habs]; norm_num; linarith
  constructor
  · have := toDouble_ge_grid (r * (120 - 45 + 1)) 6 hb6 0 (by simpa using hx0)
    simpa using this
  · by_cases h64 : r * (120 - 45 + 1) < 64
    · have := toDouble_le_grid (r * (120 - 45 + 1)) 6 hb6 4503599627370496
        (by norm_num; linarith)
      norm_num at this ⊢
      linarith
    · have h64' : 64 ≤ r * (120 - 45 + 1) := not_lt.1 h64
      have hb : binade (r * (120 - 45 + 1)) = 6 := by
        apply binade_eq _ 6 (by norm_num)
        · rw [habs]; norm_num; linarith
        · rw [habs]; norm_num; linarith
      have hr : r ≤ 1 - 2 ^ (-53 : ℤ) := double_le_pred_one r hd (by linarith) h1
      have := toDouble_le_pred (r * (120 - 45 + 1)) 6 hb 5348024557502464 (by
        norm_num at hr ⊢
        linarith)
      norm_num at this ⊢
      linarith

theorem floor_sum_bounds (x : ℚ) (hx0 : 0 ≤ x) (hx1 : x ≤ 76 - 2 ^ (-46 : ℤ)) :
    45 ≤ ⌊toDouble (x + 45)⌋ ∧ ⌊toDouble (x + 45)⌋ ≤ 120 := by
  have hy0 : 0 ≤ x + 45 := by linarith
  have hpow : (2 : ℚ) ^ (-46 : ℤ) = 1 / 70368744177664 := by norm_num
  rw [hpow] at hx1
  have hb6 : binade (x + 45) ≤ 6 := by
    apply binade_le _ 6 (by norm_num)
    rw [abs_of_nonneg hy0]
    norm_num
    linarith
  constructor
  · rw [Int.le_floor]
    have := toDouble_ge_grid (x + 45) 6 hb6 3166593487994880 (by norm_num; linarith)
    norm_num at this ⊢
    linarith
  · have hlt : ⌊toDouble (x + 45)⌋ < 121 := by
      rw [Int.floor_lt]
      have := toDouble_le_grid (x + 45) 6 hb6 8514618045497343 (by norm_num; linarith)
      norm_num at this ⊢
      linarith
    omega

theorem randomInterval_bounds (r : ℚ) (hd : toDouble r = r) (h0 : 0 ≤ r) (h1 : r < 1) :
    45 ≤ randomInterval r ∧ randomInterval r ≤ 120 := by
  obtain ⟨hx0, hx1⟩ := product_le r hd h0 h1
  exact floor_sum_bounds _ hx0 hx1

theorem toDouble_dyadic (a : ℤ) (h : |(a : ℚ) / 128| < 128) :
    toDouble ((a : ℚ) / 128) = (a : ℚ) / 128 := by
  have e : (a : ℚ) / 128 = ((a * 549755813888 : ℤ) : ℚ) * 2 ^ ((6 : ℤ) - 52) := by
    push_cast
    norm_num
    ring
  have hb : binade ((a : ℚ) / 128) ≤ 6 := binade_le _ 6 (by norm_num) (by norm_num; exact h)
  rw [e] at hb ⊢
  exact toDouble_grid 6 _ hb

theorem randomInterval_dyadic (c : ℤ) (h0 : 0 ≤ c) (h1 : c < 128) :
    randomInterval ((c : ℚ) / 128) = ⌊((c : ℚ) * 76 + 5760) / 128⌋ := by
  have hc0 : (0 : ℚ) ≤ c := by exact_mod_cast h0
  have hc1 : (c : ℚ) < 128 := by exact_mod_cast h1
  have e1 : (c : ℚ) / 128 * (120 - 45 + 1) = ((c * 76 : ℤ) : ℚ) / 128 := by
    push_cast; ring
  have e2 : ((c * 76 : ℤ) : ℚ) / 128 + 45 = ((c * 76 + 5760 : ℤ) : ℚ) / 128 := by
    push_cast; ring
  unfold randomInterval
  rw [e1, toDouble_dyadic, e2, toDouble_dyadic]
  · push_cast; rfl
  · push_cast
    rw [abs_of_nonneg (by positivity), div_lt_iff₀ (by norm_num)]
    linarith
  · push_cast
    rw [abs_of_nonneg (by positivity), div_lt_iff₀ (by norm_num)]
    linarith

theorem every_delay_drawn (k : ℤ) (hk0 : 45 ≤ k) (hk1 : k ≤ 120) :
    ∃ r : ℚ, toDouble r = r ∧ 0 ≤ r ∧ r < 1 ∧ randomInterval r = k := by
  have hc0 : 0 ≤ (32 * (k - 45) + 18) / 19 := by omega
  have hc1 : (32 * (k - 45) + 18) / 19 < 128 := by omega
  have hlo : 32 * (k - 45) ≤ 19 * ((32 * (k - 45) + 18) / 19) := by omega
  have hhi : 19 * ((32 * (k - 45) + 18) / 19) ≤ 32 * (k - 45) + 18 := by omega
  generalize (32 * (k - 45) + 18) / 19 = c at hc0 hc1 hlo hhi
  have hc0q : (0 : ℚ) ≤ c := by exact_mod_cast hc0
  have hc1q : (c : ℚ) < 128 := by exact_mod_cast hc1
  have hloq : (32 : ℚ) * (k - 45) ≤ 19 * c := by exact_mod_cast hlo
  have hhiq : (19 : ℚ) * c ≤ 32 * (k - 45) + 18 := by exact_mod_cast hhi
  refine ⟨(c : ℚ) / 128, ?_, by positivity, ?_, ?_⟩
  · apply toDouble_dyadic
    rw [abs_of_nonneg (by positivity), div_lt_iff₀ (by norm_num)]
    linarith
  · rw [div_lt_one (by norm_num)]
    exact hc1q
  · rw [randomInterval_dyadic c hc0 hc1, Int.floor_eq_iff]
    constructor
    · rw [le_div_iff₀ (by norm_num)]
      linarith
    · rw [div_lt_iff₀ (by norm_num)]
      linarith

/-! ### The polling loop -/

theorem listMessages_eq (g : Gmail) :
    listMessages g =
      (g.record (.messagesList ["INBOX"]),
        if g.rejects (.messagesList ["INBOX"]) then
          .error (.gatewayError (.messagesList ["INBOX"]))
        else .ok g.listing) := by
  unfold listMessages Gmail.messagesList
  by_cases hr : g.rejects (.messagesList ["INBOX"]) = true <;> simp [hr]

theorem processEmails_candidates (g : Gmail) (r : ℚ) (candidates : List MessageRef) (ms : ℤ)
    (h : (processEmails g r).2 = .timeout (.replyBatch candidates) ms) :
    ∃ messages, g.listing = some messages ∧ candidates = firstTimeMessages messages := by
  unfold processEmails at h
  rw [listMessages_eq] at h
  by_cases hr : g.rejects (.messagesList ["INBOX"]) = true
  · simp [hr, processListing] at h
  · cases hl : g.listing with
    | none => simp [hr, hl, processListing] at h
    | some messages =>
      refine ⟨messages, rfl, ?_⟩
      simp only [hr, hl, processListing] at h
      by_cases hlen : (firstTimeMessages messages).length > 0
      · simp [hlen] at h
        exact h.1.symm
      · simp [hlen] at h

/-! ### Base64 and UTF-8 -/

theorem base64Value_base64Char : ∀ n, n < 64 → base64Value (base64Char n) = some n := by
  decide

theorem base64Char_ne_pad : ∀ n, n < 64 → base64Char n ≠ '=' := by
  decide

theorem fromBase64_toBase64 (bytes : List Nat) (h : ∀ b ∈ bytes, b < 256) :
    fromBase64 (toBase64 bytes) = some bytes := by
  induction bytes using toBase64.induct with
  | case1 => rfl
  | case2 a =>
    have ha : a < 256 := h a (by simp)
    simp only [toBase64, fromBase64]
    rw [base64Value_base64Char _ (by omega), base64Value_base64Char _ (by omega)]
    simp
    omega
  | case3 a b =>
    have ha : a < 256 := h a (by simp)
    have hb : b < 256 := h b (by simp)
    simp only [toBase64, fromBase64]
    rw [base64Value_base64Char _ (by omega), base64Value_base64Char _ (by omega),
      base64Value_base64Char _ (by omega)]
    have := base64Char_ne_pad (b % 16 * 4) (by omega)
    simp [this]
    omega
  | case4 a b c rest ih =>
    have ha : a < 256 := h a (by simp)
    have hb : b < 256 := h b (by simp)
    have hc : c < 256 := h c (by simp)
    have hrest : ∀ x ∈ rest, x < 256 := fun x hx => h x (by simp [hx])
    simp only [toBase64, fromBase64]
    rw [base64Value_base64Char _ (by omega), base64Value_base64Char _ (by omega),
      base64Value_base64Char _ (by omega), base64Value_base64Char _ (by omega), ih hrest]
    have h1 := base64Char_ne_pad (b % 16 * 4 + c / 64) (by omega)
    have h2 := base64Char_ne_pad (c % 64) (by omega)
    simp [h1, h2]
    omega

theorem utf8EncodeScalar_lt (v : Nat) (hv : v < 1114112) : ∀ b ∈ utf8EncodeScalar v, b < 256 := by
  intro b hb
  unfold utf8EncodeScalar at hb
  split_ifs at hb <;> simp at hb <;> omega

theorem char_toNat_lt (c : Char) : c.toNat < 1114112 := by
  rcases c.valid with h | ⟨_, h⟩
  · exact Nat.lt_trans h (by decide)
  · exact h

theorem utf8Bytes_lt (text : String) : ∀ b ∈ utf8Bytes text, b < 256 := by
  intro b hb
  unfold utf8Bytes at hb
  rw [List.mem_flatMap] at hb
  obtain ⟨c, _, hc⟩ := hb
  exact utf8EncodeScalar_lt c.toNat (char_toNat_lt c) b hc

theorem fromBase64_encodeRaw (text : String) :
    fromBase64 (encodeRaw text).data = some (utf8Bytes text) :=
  fromBase64_toBase64 _ (utf8Bytes_lt text)

theorem utf8DecodeScalars_encode (v : Nat) (hv : v < 1114112) (tail : List Nat) :
    utf8DecodeScalars (utf8EncodeScalar v ++ tail) = (utf8DecodeScalars tail).map (v :: ·) := by
  have hc : ∀ x, isContinuation (128 + x % 64) = true := by
    intro x
    simp only [isContinuation, Bool.and_eq_true, decide_eq_true_eq]
    omega
  unfold utf8EncodeScalar
  split_ifs with h1 h2 h3
  · rw [utf8DecodeScalars.eq_def]
    simp [h1]
  · have e : v / 64 * 64 + v % 64 = v := by omega
    have a1 : ¬ (192 + v / 64 < 128) := by omega
    have a2 : ¬ (192 + v / 64 < 192) := by omega
    have a3 : 192 + v / 64 < 224 := by omega
    rw [utf8DecodeScalars.eq_def]
    simp [a1, a2, a3, e, hc]
  · have e : v / 4096 * 4096 + v / 64 % 64 * 64 + v % 64 = v := by omega
    have a1 : ¬ (224 + v / 4096 < 128) := by omega
    have a2 : ¬ (224 + v / 4096 < 192) := by omega
    have a3 : ¬ (224 + v / 4096 < 224) := by omega
    have a4 : 224 + v / 4096 < 240 := by omega
    rw [utf8DecodeScalars.eq_def]
    simp [a1, a2, a3, a4, e, hc]
  · have e : v / 262144 * 262144 + v / 4096 % 64 * 4096 + v / 64 % 64 * 64 + v % 64 = v := by
      omega
    have a1 : ¬ (240 + v / 262144 < 128) := by omega
    have a2 : ¬ (240 + v / 262144 < 192) := by omega
    have a3 : ¬ (240 + v / 262144 < 224) := by omega
    have a4 : ¬ (240 + v / 262144 < 240) := by omega
    have a5 : 240 + v / 262144 < 248 := by omega
    rw [utf8DecodeScalars.eq_def]
    simp [a1, a2, a3, a4, a5, e, hc]

theorem utf8Decode_utf8Bytes (text : String) : utf8Decode (utf8Bytes text) = some text := by
  have key : ∀ cs : List Char,
      utf8DecodeScalars (cs.flatMap (fun c => utf8EncodeScalar c.toNat)) =
        some (cs.map Char.toNat) := by
    intro cs
    induction cs with
    | nil => rfl
    | cons c cs ih =>
      rw [List.flatMap_cons, utf8DecodeScalars_encode _ (char_toNat_lt c), ih]
      rfl
  unfold utf8Decode utf8Bytes
  rw [key]
  simp [List.map_map, Function.comp_def, Char.ofNat_toNat]

theorem decodeRaw_encodeRaw (text : String) : decodeRaw (encodeRaw text) = some text := by
  unfold decodeRaw
  rw [fromBase64_encodeRaw, Option.some_bind, utf8Decode_utf8Bytes]

theorem rawReply_text (sender : String) (subject : Option String) :
    rawReply sender subject =
      "To: " ++ sender ++ "\r\nSubject: Re: " ++ interpolate subject ++
        "\r\n\r\nThank you for your email on \"" ++ interpolate subject ++
        "\". I\x27m currently out on vacation and will get back to you as soon as possible." := by
  unfold rawReply replyText
  apply String.ext
  simp [String.data_append]

/-! ### Sender extraction -/

theorem find?_first {α : Type} (p : α → Bool) (pre post : List α) (x : α)
    (hx : p x = true) (hpre : ∀ y ∈ pre, p y = false) :
    (pre ++ x :: post).find? p = some x := by
  induction pre with
  | nil => simp [hx]
  | cons y ys ih =>
    have hy : p y = false := hpre y (by simp)
    simp only [List.cons_append, List.find?_cons, hy]
    exact ih (fun z hz => hpre z (by simp [hz]))

theorem extractSenderEmail_headers (message : Message) (headers : List Header)
    (h : message.data.payload = some ⟨some headers⟩) :
    extractSenderEmail message = .ok ((headers.find? isFromHeader).map Header.value) := by
  unfold extractSenderEmail extractSenderEmailBody
  rw [h]
  cases hf : headers.find? isFromHeader <;> simp [hf]

theorem truthySender_false (sender : Option String) :
    truthySender sender = false ↔ sender = none ∨ sender = some "" := by
  cases sender with
  | none => simp [truthySender]
  | some s => simp [truthySender]

/-! ### Gateway calls -/

theorem messagesGet_found (g : Gmail) (id : String) (data : MessageData)
    (haccept : g.rejects (.messagesGet id) = false) (hfind : g.find id = some data) :
    g.messagesGet id = (g.record (.messagesGet id), .ok ⟨data⟩) := by
  simp [Gmail.messagesGet, haccept, hfind]

theorem lookup_modifyStored (id : String) (add remove : List String)
    (stored : List (String × MessageData)) :
    (modifyStored id add remove stored).lookup id =
      (stored.lookup id).map
        (fun data => { data with labelIds := modifyLabelIds data.labelIds add remove }) := by
  induction stored with
  | nil => rfl
  | cons entry rest ih =>
    obtain ⟨key, data⟩ := entry
    by_cases hk : key = id
    · subst hk
      simp [modifyStored, List.lookup]
    · have hb : (id == key) = false := beq_false_of_ne (fun h => hk h.symm)
      simp [modifyStored, List.lookup, hk, hb, ih]

theorem modifyLabelIds_reply (old : Option (List String)) :
    ∃ labelIds, modifyLabelIds old ["VacationReplies"] ["INBOX"] = some labelIds ∧
      "VacationReplies" ∈ labelIds ∧ "INBOX" ∉ labelIds := by
  refine ⟨_, rfl, ?_, ?_⟩
  · by_cases h : "VacationReplies" ∈ List.filter (fun l => !(["INBOX"].contains l)) (old.getD [])
    · exact List.mem_append_left _ h
    · apply List.mem_append_right
      simp only [List.mem_filter, List.mem_singleton, true_and]
      simpa using h
  · simp

/-! ### Label creation and reply -/

theorem createLabelIfNotExists_eq (g : Gmail) (labelName : String) :
    createLabelIfNotExists g labelName =
      if g.rejects .labelsList = true then
        (g.record .labelsList, .error (.gatewayError .labelsList))
      else if g.labels.any (fun label => label.name == labelName) = true then
        (g.record .labelsList, .ok none)
      else if (g.record .labelsList).rejects (.labelsCreate labelName) = true then
        ((g.record .labelsList).record (.labelsCreate labelName),
          .error (.gatewayError (.labelsCreate labelName)))
      else
        ({ (g.record .labelsList).record (.labelsCreate labelName) with
            labels := g.labels ++
              [{ id := "Label_" ++ toString g.labels.length, name := labelName }] },
          .ok none) := by
  unfold createLabelIfNotExists Gmail.labelsList
  by_cases hr : g.rejects .labelsList = true
  · rw [if_pos hr, if_pos hr]
  · rw [if_neg hr, if_neg hr]
    by_cases hex : g.labels.any (fun label => label.name == labelName) = true
    · simp only [hex, Bool.not_true, Bool.false_eq_true, if_false, if_true]
    · have hex2 : g.labels.any (fun label => label.name == labelName) = false := by
        simpa using hex
      simp only [hex2, Bool.not_false, if_true, Bool.false_eq_true, if_false]
      unfold Gmail.labelsCreate
      by_cases hc : (g.record .labelsList).rejects (.labelsCreate labelName) = true
      · rw [if_pos hc, if_pos hc]
      · rw [if_neg hc, if_neg hc]
        rfl

theorem createLabelIfNotExists_labels (g : Gmail) (labelName : String) :
    (createLabelIfNotExists g labelName).1.labels = g.labels ∨
      (g.labels.any (fun label => label.name == labelName) = false ∧
        (createLabelIfNotExists g labelName).1.labels =
          g.labels ++ [{ id := "Label_" ++ toString g.labels.length, name := labelName }]) := by
  rw [createLabelIfNotExists_eq]
  split_ifs with h1 h2 h3
  · left; rfl
  · left; rfl
  · left; rfl
  · right
    exact ⟨by simpa using h2, rfl⟩

theorem createLabelIfNotExists_accepted (g : Gmail) (labelName : String)
    (hnofault : ∀ n req, g.fault n req = false) :
    createLabelIfNotExists g labelName =
      if g.labels.any (fun label => label.name == labelName) then
        ({ g with log := g.log ++ [.labelsList] }, .ok none)
      else
        ({ g with
            log := g.log ++ [.labelsList] ++ [.labelsCreate labelName]
            labels := g.labels ++
              [{ id := "Label_" ++ toString g.labels.length, name := labelName }] },
          .ok none) := by
  unfold createLabelIfNotExists Gmail.labelsList
  simp only [Gmail.rejects, hnofault, Gmail.record]
  by_cases hex : g.labels.any (fun label => label.name == labelName) = true
  · simp [hex]
  · simp [hex, Gmail.labelsCreate, Gmail.rejects, hnofault, Gmail.record]

theorem sendReply_accepted (g : Gmail) (messageId : String) (data : MessageData) (sender : String)
    (hnofault : ∀ n req, g.fault n req = false)
    (hfind : g.find messageId = some data)
    (hsender : extractSenderEmail ⟨data⟩ = .ok (some sender)) (hne : sender ≠ "") :
    sendReply g messageId =
      ({ g with
          log := g.log ++ [.messagesGet messageId,
              .messagesSend (encodeRaw (rawReply sender data.subject))] ++
            (if g.labels.any (fun label => label.name == "VacationReplies") then
              [Request.labelsList]
            else [Request.labelsList, Request.labelsCreate "VacationReplies"]) ++
            [.messagesModify messageId ["VacationReplies"] ["INBOX"]]
          outbox := g.outbox ++ [encodeRaw (rawReply sender data.subject)]
          labels :=
            if g.labels.any (fun label => label.name == "VacationReplies") then g.labels
            else g.labels ++ [{ id := "Label_" ++ toString g.labels.length,
                                name := "VacationReplies" }]
          messages := modifyStored messageId ["VacationReplies"] ["INBOX"] g.messages },
        .ok ()) := by
  unfold sendReply
  rw [messagesGet_found g messageId data (hnofault _ _) hfind]
  simp only [hsender]
  have ht : truthySender (some sender) = true := by simp [truthySender, hne]
  simp only [ht, Bool.not_true, Bool.false_eq_true, if_false]
  simp only [Gmail.messagesSend, Gmail.rejects, Gmail.record, hnofault, Bool.false_eq_true,
    if_false, interpolate]
  rw [createLabelIfNotExists_accepted _ _ (by simpa using hnofault)]
  by_cases hex : g.labels.any (fun label => label.name == "VacationReplies") = true
  · simp [hex, Gmail.messagesModify, Gmail.rejects, Gmail.record, Gmail.find, hnofault]
    have := hfind
    unfold Gmail.find at this
    simp [this]
  · simp [hex, Gmail.messagesModify, Gmail.rejects, Gmail.record, Gmail.find, hnofault]
    have := hfind
    unfold Gmail.find at this
    simp [this]

theorem sendReplies_append_error (g : Gmail) (pre : List MessageRef) (m : MessageRef)
    (post : List MessageRef) (e : JsError)
    (hpre : (sendReplies g pre).2 = .ok ())
    (hfail : (sendReply (sendReplies g pre).1 m.id).2 = .error e) :
    sendReplies g (pre ++ m :: post) = ((sendReply (sendReplies g pre).1 m.id).1, .error e) := by
  induction pre generalizing g with
  | nil =>
    simp only [sendReplies, List.nil_append] at *
    cases hs : sendReply g m.id with
    | mk g1 res =>
      rw [hs] at hfail
      simp only at hfail
      subst hfail
      rfl
  | cons x xs ih =>
    simp only [List.cons_append, sendReplies] at *
    cases hs : sendReply g x.id with
    | mk g1 res =>
      rw [hs] at hpre hfail
      cases res with
      | error e1 => simp at hpre
      | ok u =>
        simp only at hpre hfail ⊢
        exact ih g1 hpre hfail

/-! ### Rejected calls are rethrown -/

theorem reports_refl (g : Gmail) (err : Option JsError) : Reports g g err :=
  ⟨rfl, [], by simp, by simp⟩

theorem reports_call (g g1 : Gmail) (req : Request) (err : Option JsError)
    (hfault : g1.fault = g.fault) (hlog : g1.log = g.log ++ [req])
    (herr : g.rejects req = true → err = some (.gatewayError req)) : Reports g g1 err := by
  refine ⟨hfault, [req], hlog, ?_⟩
  intro k r hk hr
  rcases k with _ | k
  · simp at hk
    subst hk
    exact herr (by simpa [Gmail.rejects] using hr)
  · simp at hk

theorem reports_trans (g g1 g2 : Gmail) (err : Option JsError)
    (h1 : Reports g g1 none) (h2 : Reports g1 g2 err) : Reports g g2 err := by
  obtain ⟨hf1, c1, hl1, hr1⟩ := h1
  obtain ⟨hf2, c2, hl2, hr2⟩ := h2
  refine ⟨hf2.trans hf1, c1 ++ c2, by rw [hl2, hl1, List.append_assoc], ?_⟩
  intro k req hk hr
  by_cases hlt : k < c1.length
  · rw [List.getElem?_append_left hlt] at hk
    exact absurd (hr1 k req hk hr) (by simp)
  · have hge : c1.length ≤ k := not_lt.1 hlt
    rw [List.getElem?_append_right hge] at hk
    apply hr2 (k - c1.length) req hk
    rw [hf1, hl1, List.length_append]
    have : g.log.length + c1.length + (k - c1.length) = g.log.length + k := by omega
    rw [this]
    exact hr

theorem reports_messagesGet (g : Gmail) (id : String) :
    Reports g (g.messagesGet id).1 (errorOf (g.messagesGet id).2) := by
  apply reports_call g _ (.messagesGet id) <;> unfold Gmail.messagesGet <;> dsimp only
  · split_ifs
    · rfl
    · cases g.find id <;> rfl
  · split_ifs
    · rfl
    · cases g.find id <;> rfl
  · intro h
    rw [if_pos h]
    rfl

theorem reports_messagesSend (g : Gmail) (raw : String) :
    Reports g (g.messagesSend raw).1 (errorOf (g.messagesSend raw).2) := by
  apply reports_call g _ (.messagesSend raw) <;> unfold Gmail.messagesSend <;> dsimp only
  · split_ifs <;> rfl
  · split_ifs <;> rfl
  · intro h
    rw [if_pos h]
    rfl

theorem reports_labelsList (g : Gmail) :
    Reports g g.labelsList.1 (errorOf g.labelsList.2) := by
  apply reports_call g _ .labelsList <;> unfold Gmail.labelsList <;> dsimp only
  · split_ifs <;> rfl
  · split_ifs <;> rfl
  · intro h
    rw [if_pos h]
    rfl

theorem reports_labelsCreate (g : Gmail) (name : String) :
    Reports g (g.labelsCreate name).1 (errorOf (g.labelsCreate name).2) := by
  apply reports_call g _ (.labelsCreate name) <;> unfold Gmail.labelsCreate <;> dsimp only
  · split_ifs <;> rfl
  · split_ifs <;> rfl
  · intro h
    rw [if_pos h]
    rfl

theorem reports_messagesModify (g : Gmail) (id : String) (add remove : List String) :
    Reports g (g.messagesModify id add remove).1
      (errorOf (g.messagesModify id add remove).2) := by
  apply reports_call g _ (.messagesModify id add remove) <;> unfold Gmail.messagesModify <;> dsimp only
  · split_ifs
    · rfl
    · cases g.find id <;> rfl
  · split_ifs
    · rfl
    · cases g.find id <;> rfl
  · intro h
    rw [if_pos h]
    rfl

theorem reports_createLabelIfNotExists (g : Gmail) (labelName : String) :
    Reports g (createLabelIfNotExists g labelName).1
      (errorOf (createLabelIfNotExists g labelName).2) := by
  unfold createLabelIfNotExists
  have h1 := reports_labelsList g
  rcases hres : g.labelsList with ⟨g1, e | labels⟩
  · rw [hres] at h1
    exact h1
  · rw [hres] at h1
    simp only
    split_ifs
    · have h2 := reports_labelsCreate g1 labelName
      rcases hres2 : g1.labelsCreate labelName with ⟨g2, e | u⟩
      · rw [hres2] at h2
        exact reports_trans g g1 g2 _ h1 h2
      · rw [hres2] at h2
        exact reports_trans g g1 g2 _ h1 h2
    · exact reports_trans g g1 g1 _ h1 (reports_refl g1 _)

theorem reports_sendReply (g : Gmail) (messageId : String) :
    Reports g (sendReply g messageId).1 (errorOf (sendReply g messageId).2) := by
  unfold sendReply
  have h1 := reports_messagesGet g messageId
  rcases hres : g.messagesGet messageId with ⟨g1, e | message⟩
  · rw [hres] at h1
    exact h1
  · rw [hres] at h1
    simp only
    rcases hsender : extractSenderEmail message with e | sender
    · exact reports_trans g g1 g1 _ h1 (reports_refl g1 _)
    · simp only
      split_ifs
      · exact reports_trans g g1 g1 _ h1 (reports_refl g1 _)
      · have h2 := reports_messagesSend g1
          (encodeRaw (rawReply (interpolate sender) message.data.subject))
        rcases hres2 : g1.messagesSend
          (encodeRaw (rawReply (interpolate sender) message.data.subject)) with ⟨g2, e | u⟩
        · rw [hres2] at h2
          exact reports_trans g g1 g2 _ h1 h2
        · rw [hres2] at h2
          have h12 := reports_trans g g1 g2 _ h1 h2
          simp only
          have h3 := reports_createLabelIfNotExists g2 "VacationReplies"
          rcases hres3 : createLabelIfNotExists g2 "VacationReplies" with ⟨g3, e | v⟩
          · rw [hres3] at h3
            exact reports_trans g g2 g3 _ h12 h3
          · rw [hres3] at h3
            have h13 := reports_trans g g2 g3 _ h12 h3
            simp only
            have h4 := reports_messagesModify g3 messageId ["VacationReplies"] ["INBOX"]
            rcases hres4 : g3.messagesModify messageId ["VacationReplies"] ["INBOX"]
              with ⟨g4, e | w⟩
            · rw [hres4] at h4
              exact reports_trans g g3 g4 _ h13 h4
            · rw [hres4] at h4
              exact reports_trans g g3 g4 _ h13 h4

theorem sendReply_rejected (g : Gmail) (messageId : String) (i : Nat) (req : Request)
    (hi : g.log.length ≤ i)
    (hissued : (sendReply g messageId).1.log[i]? = some req)
    (hrejected : g.fault i req = true) :
    (sendReply g messageId).2 = .error (.gatewayError req) := by
  obtain ⟨-, calls, hlog, hrep⟩ := reports_sendReply g messageId
  rw [hlog, List.getElem?_append_right hi] at hissued
  have := hrep (i - g.log.length) req hissued (by
    have : g.log.length + (i - g.log.length) = i := by omega
    rw [this]; exact hrejected)
  cases hres : (sendReply g messageId).2 with
  | ok u => rw [hres] at this; simp [errorOf] at this
  | error e =>
    rw [hres] at this
    simp only [errorOf, Option.some.injEq] at this
    rw [this]

/-! ## The claims -/

/-- C1, as amended: `sendReply` rethrows every rejection of the gateway, whichever call it hits
(the `get`, the `send`, the label listing or creation, the `modify`): if the candidates `pre` were
handled without error and the environment rejects a call `req` that `sendReply` makes for the next
candidate `m`, then `sendReply` fails with the error of that call, and the loop over
`pre ++ m :: post` leaves the mailbox and the log as that failing `sendReply` left them: no
candidate of `post` is passed to `sendReply`. -/
theorem batch_failure_skips_rest (g : Gmail) (pre : List MessageRef) (m : MessageRef)
    (post : List MessageRef) (i : Nat) (req : Request)
    (hpre : (sendReplies g pre).2 = .ok ())
    (hnew : (sendReplies g pre).1.log.length ≤ i)
    (hissued : (sendReply (sendReplies g pre).1 m.id).1.log[i]? = some req)
    (hrejected : (sendReplies g pre).1.fault i req = true) :
    (sendReply (sendReplies g pre).1 m.id).2 = .error (.gatewayError req) ∧
      (sendReplies g (pre ++ m :: post)).1 = (sendReply (sendReplies g pre).1 m.id).1 ∧
      (sendReplies g (pre ++ m :: post)).1.log = (sendReply (sendReplies g pre).1 m.id).1.log := by
  have hfail := sendReply_rejected (sendReplies g pre).1 m.id i req hnew hissued hrejected
  have hloop := sendReplies_append_error g pre m post _ hpre hfail
  exact ⟨hfail, by rw [hloop], by rw [hloop]⟩

/-- C1, witness: on the sample mailbox, after the first candidate, a rejection of the `get`, of the
`send`, of the label listing or of the `modify` for the second candidate fails its `sendReply`; so
does a rejection of the label creation for the first candidate. -/
theorem batch_failure_skips_rest_witness :
    (sendReply (sendReplies (sampleMailbox (callFails 5)) [⟨"m1", none⟩]).1 "m2").2 =
        .error (.gatewayError (.messagesGet "m2")) ∧
      (sendReply (sendReplies (sampleMailbox (callFails 6)) [⟨"m1", none⟩]).1 "m2").2 =
        .error (.gatewayError (.messagesSend (encodeRaw (rawReply "b@x.com" (some "Yo"))))) ∧
      (sendReply (sendReplies (sampleMailbox (callFails 7)) [⟨"m1", none⟩]).1 "m2").2 =
        .error (.gatewayError .labelsList) ∧
      (sendReply (sendReplies (sampleMailbox (callFails 8)) [⟨"m1", none⟩]).1 "m2").2 =
        .error (.gatewayError (.messagesModify "m2" ["VacationReplies"] ["INBOX"])) ∧
      (sendReply (sendReplies (sampleMailbox (callFails 3)) []).1 "m1").2 =
        .error (.gatewayError (.labelsCreate "VacationReplies")) ∧
      (sendReplies (sampleMailbox (callFails 6)) [⟨"m1", none⟩, ⟨"m2", none⟩, ⟨"m3", none⟩]).1.log =
        (sendReply (sendReplies (sampleMailbox (callFails 6)) [⟨"m1", none⟩]).1 "m2").1.log :=
  ⟨(batch_failure_skips_rest (sampleMailbox (callFails 5)) [⟨"m1", none⟩] ⟨"m2", none⟩
      [⟨"m3", none⟩] 5 (.messagesGet "m2") rfl (by decide) rfl rfl).1,
    (batch_failure_skips_rest (sampleMailbox (callFails 6)) [⟨"m1", none⟩] ⟨"m2", none⟩
      [⟨"m3", none⟩] 6 (.messagesSend (encodeRaw (rawReply "b@x.com" (some "Yo"))))
      rfl (by decide) rfl rfl).1,
    (batch_failure_skips_rest (sampleMailbox (callFails 7)) [⟨"m1", none⟩] ⟨"m2", none⟩
      [⟨"m3", none⟩] 7 .labelsList rfl (by decide) rfl rfl).1,
    (batch_failure_skips_rest (sampleMailbox (callFails 8)) [⟨"m1", none⟩] ⟨"m2", none⟩
      [⟨"m3", none⟩] 8 (.messagesModify "m2" ["VacationReplies"] ["INBOX"])
      rfl (by decide) rfl rfl).1,
    (batch_failure_skips_rest (sampleMailbox (callFails 3)) [] ⟨"m1", none⟩
      [⟨"m2", none⟩, ⟨"m3", none⟩] 3 (.labelsCreate "VacationReplies")
      rfl (by decide) rfl rfl).1,
    (batch_failure_skips_rest (sampleMailbox (callFails 6)) [⟨"m1", none⟩] ⟨"m2", none⟩
      [⟨"m3", none⟩] 6 (.messagesSend (encodeRaw (rawReply "b@x.com" (some "Yo"))))
      rfl (by decide) rfl rfl).2.2⟩

/-- C1, counterexample: with three candidates of which the second fails at send time, the batch
does not complete, the third candidate is never fetched, only one reply has been sent and the
third message keeps its labels. -/
theorem batch_resilience_counterexample :
    (replyBatch (sampleMailbox seventhCallFails)
        [⟨"m1", none⟩, ⟨"m2", none⟩, ⟨"m3", none⟩]).2 ≠ .startsProcessEmails ∧
      Request.messagesGet "m3" ∉
        (replyBatch (sampleMailbox seventhCallFails)
          [⟨"m1", none⟩, ⟨"m2", none⟩, ⟨"m3", none⟩]).1.log ∧
      (replyBatch (sampleMailbox seventhCallFails)
          [⟨"m1", none⟩, ⟨"m2", none⟩, ⟨"m3", none⟩]).1.outbox.length = 1 ∧
      ((replyBatch (sampleMailbox seventhCallFails)
          [⟨"m1", none⟩, ⟨"m2", none⟩, ⟨"m3", none⟩]).1.find "m3").map MessageData.labelIds =
        some (some ["INBOX"]) := by
  decide

/-- C2, as amended: a listed message is in `firstTimeMessages` if and only if its `labelIds` field
is absent. -/
theorem candidate_filter_iff (messages : List MessageRef) (m : MessageRef) :
    m ∈ firstTimeMessages messages ↔ m ∈ messages ∧ m.labelIds = none :=
  mem_firstTimeMessages messages m

/-- C2, counterexample: a listed message whose `labelIds` is the empty list carries no label, yet
the filter does not select it. -/
theorem candidate_filter_counterexample :
    ¬ ((⟨"m1", some []⟩ : MessageRef) ∈ firstTimeMessages [⟨"m1", some []⟩] ↔
        ((⟨"m1", some []⟩ : MessageRef) ∈ [(⟨"m1", some []⟩ : MessageRef)] ∧
          ((⟨"m1", some []⟩ : MessageRef).labelIds = none ∨
            (⟨"m1", some []⟩ : MessageRef).labelIds = some []))) := by
  decide

/-- C3: a message whose `labelIds` is a non-empty list, whatever its labels, is not selected by
the candidate filter, and is not among the candidates that the timer callback of any invocation of
`processEmails` passes to `sendReply`. -/
theorem labelled_not_selected (messages : List MessageRef) (m : MessageRef) (l : String)
    (ls : List String) (h : m.labelIds = some (l :: ls)) :
    m ∉ firstTimeMessages messages ∧
      ∀ (g : Gmail) (r : ℚ) (candidates : List MessageRef) (ms : ℤ),
        (processEmails g r).2 = .timeout (.replyBatch candidates) ms → m ∉ candidates := by
  have key : ∀ msgs, m ∉ firstTimeMessages msgs := by
    intro msgs hm
    rw [mem_firstTimeMessages, h] at hm
    exact Option.noConfusion hm.2
  refine ⟨key messages, ?_⟩
  intro g r candidates ms hp
  obtain ⟨msgs, -, rfl⟩ := processEmails_candidates g r candidates ms hp
  exact key msgs

/-- C3, witness: a message labelled `VacationReplies` listed next to an unlabelled one. -/
theorem labelled_not_selected_witness :
    (⟨"m2", some ["VacationReplies"]⟩ : MessageRef) ∉
      firstTimeMessages [⟨"m1", none⟩, ⟨"m2", some ["VacationReplies"]⟩] :=
  (labelled_not_selected [⟨"m1", none⟩, ⟨"m2", some ["VacationReplies"]⟩]
    ⟨"m2", some ["VacationReplies"]⟩ "VacationReplies" [] rfl).1

/-- C4, the code at the failing inputs: when the listing call is rejected, `processEmails` ends in
its `catch` clause with no timer set and no call of `processEmails`; and when a `sendReply` of the
batch fails, the timer callback rejects before its call of `processEmails`. -/
theorem list_failure_ends_loop :
    (processEmails (sampleMailbox firstCallFails) (1 / 2)).2 =
        .nothing (.gatewayError (.messagesList ["INBOX"])) ∧
      (replyBatch (sampleMailbox seventhCallFails)
        [⟨"m1", none⟩, ⟨"m2", none⟩, ⟨"m3", none⟩]).2 =
        .rejected (.gatewayError (.messagesSend (encodeRaw (rawReply "b@x.com" (some "Yo"))))) := by
  constructor
  · rfl
  · rfl

/-- C5: when the message exists, its sender is extracted and non-empty, and the gateway accepts
every call, `sendReply` resolves; it issues, in this order, the `get`, exactly one `send` whose
`raw` decodes (Base64, then UTF-8) to the reply text of the claim, the label listing (and the
label creation when no label is named `VacationReplies`), and one `modify` of the same message id
adding `VacationReplies` and removing `INBOX`; the stored message then carries `VacationReplies`,
does not carry `INBOX`, and is not a candidate of any later listing.  The subject is interpolated
as the template literal does (`undefined` when the field is absent). -/
theorem sendReply_success (g : Gmail) (messageId : String) (data : MessageData) (sender : String)
    (hnofault : ∀ n req, g.fault n req = false)
    (hfind : g.find messageId = some data)
    (hsender : extractSenderEmail ⟨data⟩ = .ok (some sender)) (hne : sender ≠ "") :
    ∃ text raw labelIds,
      text = "To: " ++ sender ++ "\r\nSubject: Re: " ++ interpolate data.subject ++
        "\r\n\r\nThank you for your email on \"" ++ interpolate data.subject ++
        "\". I\x27m currently out on vacation and will get back to you as soon as possible." ∧
      decodeRaw raw = some text ∧
      (sendReply g messageId).2 = .ok () ∧
      (sendReply g messageId).1.log =
        g.log ++ [.messagesGet messageId, .messagesSend raw] ++
          (if g.labels.any (fun label => label.name == "VacationReplies") then
            [Request.labelsList]
          else [Request.labelsList, Request.labelsCreate "VacationReplies"]) ++
          [.messagesModify messageId ["VacationReplies"] ["INBOX"]] ∧
      (sendReply g messageId).1.outbox = g.outbox ++ [raw] ∧
      (sendReply g messageId).1.find messageId = some { data with labelIds := some labelIds } ∧
      "VacationReplies" ∈ labelIds ∧ "INBOX" ∉ labelIds ∧
      ∀ messages, (⟨messageId, some labelIds⟩ : MessageRef) ∉ firstTimeMessages messages := by
  obtain ⟨labelIds, hmod, hin, hout⟩ := modifyLabelIds_reply data.labelIds
  refine ⟨_, encodeRaw (rawReply sender data.subject), labelIds, rfl, ?_, ?_, ?_, ?_, ?_,
    hin, hout, ?_⟩
  · rw [← rawReply_text]
    exact decodeRaw_encodeRaw _
  · rw [sendReply_accepted g messageId data sender hnofault hfind hsender hne]
  · rw [sendReply_accepted g messageId data sender hnofault hfind hsender hne]
  · rw [sendReply_accepted g messageId data sender hnofault hfind hsender hne]
  · rw [sendReply_accepted g messageId data sender hnofault hfind hsender hne]
    simp only [Gmail.find]
    rw [lookup_modifyStored]
    have := hfind
    unfold Gmail.find at this
    rw [this, Option.map_some', hmod]
  · intro messages hm
    rw [mem_firstTimeMessages] at hm
    exact Option.noConfusion hm.2

/-- C5, witness: the reply to the first message of the sample mailbox. -/
theorem sendReply_success_witness :
    (sendReply (sampleMailbox noFault) "m1").2 = .ok () ∧
      ∃ labelIds,
        ((sendReply (sampleMailbox noFault) "m1").1.find "m1").map MessageData.labelIds =
          some (some labelIds) ∧
        "VacationReplies" ∈ labelIds ∧ "INBOX" ∉ labelIds := by
  obtain ⟨_, _, labelIds, -, -, hok, -, -, hfind, hin, hout, -⟩ :=
    sendReply_success (sampleMailbox noFault) "m1"
      ⟨some "Hi", some ⟨some [⟨"From", "a@x.com"⟩]⟩, some ["INBOX"]⟩ "a@x.com"
      (fun _ _ => rfl) rfl rfl (by decide)
  exact ⟨hok, labelIds, by rw [hfind]; rfl, hin, hout⟩

/-- C6: `extractSenderEmail` never throws; without `payload` or without `headers` it returns
`undefined`; with a header list it returns the value of the first header whose lower-cased name
is `from` (`From`, `FROM` and `from` all match), and `undefined` when no header name matches; the
headers `[{name: "From", value: "a@x.com"}]` give `a@x.com`. -/
theorem sender_extraction (message : Message) :
    (∃ sender, extractSenderEmail message = .ok sender) ∧
      (message.data.payload = none ∨ message.data.payload = some ⟨none⟩ →
        extractSenderEmail message = .ok none) ∧
      (∀ headers, message.data.payload = some ⟨some headers⟩ →
        (∀ pre fromHeader post, headers = pre ++ fromHeader :: post →
          toLowerCase fromHeader.name = "from" →
          (∀ other ∈ pre, toLowerCase other.name ≠ "from") →
          extractSenderEmail message = .ok (some fromHeader.value)) ∧
        ((∀ other ∈ headers, toLowerCase other.name ≠ "from") →
          extractSenderEmail message = .ok none)) ∧
      (toLowerCase "From" = "from" ∧ toLowerCase "FROM" = "from" ∧ toLowerCase "from" = "from") ∧
      (message.data.payload = some ⟨some [⟨"From", "a@x.com"⟩]⟩ →
        extractSenderEmail message = .ok (some "a@x.com")) := by
  refine ⟨?_, ?_, ?_, by decide, ?_⟩
  · unfold extractSenderEmail
    cases extractSenderEmailBody message with
    | ok sender => exact ⟨sender, rfl⟩
    | error e => exact ⟨none, rfl⟩
  · rintro (h | h) <;> simp [extractSenderEmail, extractSenderEmailBody, h]
  · intro headers h
    rw [extractSenderEmail_headers message headers h]
    constructor
    · rintro pre fromHeader post rfl hfrom hpre
      rw [find?_first isFromHeader pre post fromHeader]
      · rfl
      · simp [isFromHeader, hfrom]
      · intro y hy
        simpa [isFromHeader] using hpre y hy
    · intro hnone
      have : headers.find? isFromHeader = none := by
        rw [List.find?_eq_none]
        intro y hy
        simpa [isFromHeader] using hnone y hy
      rw [this]
      rfl
  · intro h
    rw [extractSenderEmail_headers message _ h]
    rfl

/-- C6, witness: an upper-case `FROM` header after a `To` header. -/
theorem sender_extraction_witness :
    extractSenderEmail ⟨⟨some "Hi", some ⟨some [⟨"To", "me@y.org"⟩, ⟨"FROM", "a@x.com"⟩]⟩, none⟩⟩ =
      .ok (some "a@x.com") :=
  ((sender_extraction ⟨⟨some "Hi", some ⟨some [⟨"To", "me@y.org"⟩, ⟨"FROM", "a@x.com"⟩]⟩,
      none⟩⟩).2.2.1 [⟨"To", "me@y.org"⟩, ⟨"FROM", "a@x.com"⟩] rfl).1
    [⟨"To", "me@y.org"⟩] ⟨"FROM", "a@x.com"⟩ [] rfl (by decide) (by decide)

/-- C7: when the message is fetched and `extractSenderEmail` yields no sender (`undefined`, or an
empty `From` value), `sendReply` resolves without error having issued the `get` only: no send, no
label call and no modify; outbox, labels and stored messages are unchanged, and the loop of the
batch goes on with the next candidate. -/
theorem missing_sender_skip (g : Gmail) (messageId : String) (data : MessageData)
    (sender : Option String)
    (haccept : g.rejects (.messagesGet messageId) = false)
    (hfind : g.find messageId = some data)
    (hextract : extractSenderEmail ⟨data⟩ = .ok sender)
    (hmissing : sender = none ∨ sender = some "") :
    sendReply g messageId = (g.record (.messagesGet messageId), .ok ()) ∧
      (sendReply g messageId).1.log = g.log ++ [.messagesGet messageId] ∧
      (sendReply g messageId).1.outbox = g.outbox ∧
      (sendReply g messageId).1.labels = g.labels ∧
      (sendReply g messageId).1.messages = g.messages ∧
      ∀ (labelIds : Option (List String)) (rest : List MessageRef),
        sendReplies g (⟨messageId, labelIds⟩ :: rest) =
          sendReplies (g.record (.messagesGet messageId)) rest := by
  have hskip : sendReply g messageId = (g.record (.messagesGet messageId), .ok ()) := by
    unfold sendReply
    rw [messagesGet_found g messageId data haccept hfind]
    simp only [hextract]
    simp [(truthySender_false sender).2 hmissing]
  refine ⟨hskip, ?_, ?_, ?_, ?_, ?_⟩
  · rw [hskip]; rfl
  · rw [hskip]; rfl
  · rw [hskip]; rfl
  · rw [hskip]; rfl
  · intro labelIds rest
    simp [sendReplies, hskip]

/-- C7, witness: a stored message that has a `To` header only. -/
theorem missing_sender_skip_witness :
    (sendReply quietMailbox "m4").2 = .ok () ∧
      (sendReply quietMailbox "m4").1.log = [.messagesGet "m4"] ∧
      (sendReply quietMailbox "m4").1.outbox = [] :=
  have h := missing_sender_skip quietMailbox "m4"
    ⟨some "Hi", some ⟨some [⟨"To", "me@y.org"⟩]⟩, some ["INBOX"]⟩ none rfl rfl rfl (Or.inl rfl)
  ⟨congrArg Prod.snd h.1, h.2.1, h.2.2.1⟩

/-- C8, as amended: two calls of `createLabelIfNotExists` in sequence with the same name create
at most one label in total, whatever the gateway rejects; when the gateway accepts the calls,
exactly one label is created if none of that name existed and none otherwise, the second call
creates nothing, a label of that name exists afterwards, and both calls resolve to `undefined`:
the function returns no label id. -/
theorem label_creation_twice (g : Gmail) (labelName : String) :
    (createLabelIfNotExists (createLabelIfNotExists g labelName).1 labelName).1.labels.length ≤
        g.labels.length + 1 ∧
      ((∀ n req, g.fault n req = false) →
        (createLabelIfNotExists g labelName).2 = .ok none ∧
        (createLabelIfNotExists (createLabelIfNotExists g labelName).1 labelName).2 = .ok none ∧
        (createLabelIfNotExists (createLabelIfNotExists g labelName).1 labelName).1.labels =
          (createLabelIfNotExists g labelName).1.labels ∧
        (g.labels.any (fun label => label.name == labelName) = true →
          (createLabelIfNotExists g labelName).1.labels = g.labels) ∧
        (g.labels.any (fun label => label.name == labelName) = false →
          ∃ labelId, (createLabelIfNotExists g labelName).1.labels =
            g.labels ++ [{ id := labelId, name := labelName }]) ∧
        ∃ label ∈ (createLabelIfNotExists g labelName).1.labels, label.name = labelName) := by
  constructor
  · rcases createLabelIfNotExists_labels g labelName with h1 | ⟨_, h1⟩
    · rcases createLabelIfNotExists_labels (createLabelIfNotExists g labelName).1 labelName
        with h2 | ⟨_, h2⟩
      · rw [h2, h1]; omega
      · rw [h2, h1]; simp
    · rcases createLabelIfNotExists_labels (createLabelIfNotExists g labelName).1 labelName
        with h2 | ⟨hno, h2⟩
      · rw [h2, h1]; simp
      · rw [h1] at hno
        simp at hno
  · intro hnofault
    have hfirst := createLabelIfNotExists_accepted g labelName hnofault
    by_cases hex : g.labels.any (fun label => label.name == labelName) = true
    · rw [if_pos hex] at hfirst
      have hsecond := createLabelIfNotExists_accepted (createLabelIfNotExists g labelName).1
        labelName (by rw [hfirst]; exact hnofault)
      rw [hfirst] at hsecond ⊢
      rw [if_pos hex] at hsecond
      rw [hsecond]
      refine ⟨rfl, rfl, rfl, fun _ => rfl, fun h => ?_, ?_⟩
      · rw [hex] at h; cases h
      · simpa using hex
    · rw [if_neg hex] at hfirst
      have hsecond := createLabelIfNotExists_accepted (createLabelIfNotExists g labelName).1
        labelName (by rw [hfirst]; exact hnofault)
      rw [hfirst] at hsecond ⊢
      rw [if_pos (by simp)] at hsecond
      rw [hsecond]
      refine ⟨rfl, rfl, rfl, fun h => absurd h hex, fun _ => ⟨_, rfl⟩, ?_⟩
      exact ⟨_, List.mem_append_right _ (List.mem_singleton_self _), rfl⟩

/-- C8, witness: the label is created by the first call on the sample mailbox, not by the
second. -/
theorem label_creation_twice_witness :
    (createLabelIfNotExists (sampleMailbox noFault) "VacationReplies").2 = .ok none ∧
      (createLabelIfNotExists (createLabelIfNotExists (sampleMailbox noFault) "VacationReplies").1
        "VacationReplies").1.labels =
        (createLabelIfNotExists (sampleMailbox noFault) "VacationReplies").1.labels :=
  ⟨((label_creation_twice (sampleMailbox noFault) "VacationReplies").2 (fun _ _ => rfl)).1,
    ((label_creation_twice (sampleMailbox noFault) "VacationReplies").2 (fun _ _ => rfl)).2.2.1⟩

/-- C8, counterexample: on a mailbox without labels no label id is returned by both calls and
borne by the label of that name. -/
theorem label_id_counterexample :
    ¬ ∃ labelId : String,
      (createLabelIfNotExists (sampleMailbox noFault) "VacationReplies").2 = .ok (some labelId) ∧
      (createLabelIfNotExists (createLabelIfNotExists (sampleMailbox noFault)
        "VacationReplies").1 "VacationReplies").2 = .ok (some labelId) ∧
      (⟨labelId, "VacationReplies"⟩ : Label) ∈
        (createLabelIfNotExists (createLabelIfNotExists (sampleMailbox noFault)
          "VacationReplies").1 "VacationReplies").1.labels := by
  rintro ⟨labelId, h, -⟩
  have h0 : (createLabelIfNotExists (sampleMailbox noFault) "VacationReplies").2 = .ok none := rfl
  rw [h0] at h
  cases h

/-- C9, as amended: for every draw `r` that is a double with `0 ≤ r < 1`, the delay that line 136
computes in double arithmetic is an integer between 45 and 120, and when the listing has
candidates the timer of the batch is set to that delay times 1000 ms; every integer `k` of
`[45, 120]` is the delay of some such draw. -/
theorem delay_range (r : ℚ) (hd : toDouble r = r) (h0 : 0 ≤ r) (h1 : r < 1) (k : ℤ)
    (hk0 : 45 ≤ k) (hk1 : k ≤ 120) :
    45 ≤ randomInterval r ∧ randomInterval r ≤ 120 ∧
      (∀ (g : Gmail) (messages : List MessageRef),
        g.rejects (.messagesList ["INBOX"]) = false → g.listing = some messages →
        firstTimeMessages messages ≠ [] →
        (processEmails g r).2 =
          .timeout (.replyBatch (firstTimeMessages messages)) (randomInterval r * 1000)) ∧
      ∃ draw : ℚ, toDouble draw = draw ∧ 0 ≤ draw ∧ draw < 1 ∧ randomInterval draw = k := by
  refine ⟨(randomInterval_bounds r hd h0 h1).1, (randomInterval_bounds r hd h0 h1).2, ?_,
    every_delay_drawn k hk0 hk1⟩
  intro g messages haccept hlist hsome
  unfold processEmails
  rw [listMessages_eq]
  have hlen : (firstTimeMessages messages).length > 0 := List.length_pos.2 hsome
  simp [haccept, hlist, processListing, hlen]

/-- C9, witness: the draw `1/2`, on the sample mailbox. -/
theorem delay_range_witness :
    45 ≤ randomInterval (1 / 2) ∧ randomInterval (1 / 2) ≤ 120 ∧
      (processEmails (sampleMailbox noFault) (1 / 2)).2 =
        .timeout (.replyBatch [⟨"m1", none⟩, ⟨"m2", none⟩, ⟨"m3", none⟩])
          (randomInterval (1 / 2) * 1000) :=
  have h := delay_range (1 / 2)
    (by
      have h := toDouble_dyadic 64 (by rw [abs_of_nonneg (by norm_num)]; norm_num)
      have e : ((64 : ℤ) : ℚ) / 128 = 1 / 2 := by norm_num
      rwa [e] at h)
    (by norm_num) (by norm_num) 83 (by norm_num) (by norm_num)
  ⟨h.1, h.2.1, h.2.2.1 (sampleMailbox noFault) [⟨"m1", none⟩, ⟨"m2", none⟩, ⟨"m3", none⟩]
    rfl rfl (by decide)⟩

/-- C9, counterexample: the double `414805228836756 / 2 ^ 52` lies in `[0, 1)` and in the interval
`[(51-45)/76, (51-44)/76)`, and the formula `floor(r*(120-45+1))+45` gives 51 for it, yet the
delay computed by line 136 is 52: the sum `r*76 + 45` is halfway between two doubles and rounds
up to 52. -/
theorem delay_counterexample :
    toDouble ((414805228836756 : ℚ) / 2 ^ 52) = (414805228836756 : ℚ) / 2 ^ 52 ∧
      (0 : ℚ) ≤ (414805228836756 : ℚ) / 2 ^ 52 ∧ (414805228836756 : ℚ) / 2 ^ 52 < 1 ∧
      randomInterval ((414805228836756 : ℚ) / 2 ^ 52) = 52 ∧
      specInterval ((414805228836756 : ℚ) / 2 ^ 52) = 51 ∧
      ((51 : ℚ) - 45) / 76 ≤ (414805228836756 : ℚ) / 2 ^ 52 ∧
      (414805228836756 : ℚ) / 2 ^ 52 < ((51 : ℚ) - 44) / 76 := by
  have hr : toDouble ((414805228836756 : ℚ) / 2 ^ 52) = (414805228836756 : ℚ) / 2 ^ 52 := by
    have e : (414805228836756 : ℚ) / 2 ^ 52 =
        ((414805228836756 : ℤ) : ℚ) * 2 ^ ((0 : ℤ) - 52) := by norm_num
    have hb : binade ((414805228836756 : ℚ) / 2 ^ 52) ≤ 0 :=
      binade_le _ 0 (le_refl _) (by rw [abs_of_nonneg (by positivity)]; norm_num)
    rw [e] at hb ⊢
    exact toDouble_grid 0 _ hb
  have hx : toDouble ((414805228836756 : ℚ) / 2 ^ 52 * (120 - 45 + 1)) =
      (7881299347898364 : ℚ) / 2 ^ 50 := by
    have e : (414805228836756 : ℚ) / 2 ^ 52 * (120 - 45 + 1) =
        ((7881299347898364 : ℤ) : ℚ) * 2 ^ ((2 : ℤ) - 52) := by norm_num
    have e2 : (7881299347898364 : ℚ) / 2 ^ 50 =
        ((7881299347898364 : ℤ) : ℚ) * 2 ^ ((2 : ℤ) - 52) := by norm_num
    have hb : binade ((414805228836756 : ℚ) / 2 ^ 52 * (120 - 45 + 1)) ≤ 2 :=
      binade_le _ 2 (by norm_num) (by rw [abs_of_nonneg (by positivity)]; norm_num)
    rw [e2]
    rw [e] at hb ⊢
    exact toDouble_grid 2 _ hb
  have hy : toDouble ((7881299347898364 : ℚ) / 2 ^ 50 + 45) = 52 := by
    have hb : binade ((7881299347898364 : ℚ) / 2 ^ 50 + 45) = 5 := by
      apply binade_eq _ 5 (by norm_num)
      · rw [abs_of_nonneg (by positivity)]; norm_num
      · rw [abs_of_nonneg (by positivity)]; norm_num
    unfold toDouble
    rw [hb]
    have hfl : ⌊((7881299347898364 : ℚ) / 2 ^ 50 + 45) / 2 ^ ((5 : ℤ) - 52)⌋ =
        7318349394477055 := by
      rw [Int.floor_eq_iff]
      norm_num
    unfold roundHalfEven
    rw [hfl]
    norm_num
  refine ⟨hr, by positivity, by norm_num, ?_, ?_, by norm_num, by norm_num⟩
  · unfold randomInterval
    rw [hx, hy]
    exact Int.floor_intCast 52
  · unfold specInterval
    have : ⌊(414805228836756 : ℚ) / 2 ^ 52 * (120 - 45 + 1)⌋ = 6 := by
      rw [Int.floor_eq_iff]
      norm_num
    rw [this]
    rfl

/-- Listing without candidates: when the listing succeeds with a list of messages none of which
is a candidate (the empty list included), `processEmails` issues the listing call only, sends
nothing, and sets a timer of exactly 60000 ms for `processEmails`, whatever the random draw. -/
theorem no_candidates_delay (g : Gmail) (r : ℚ) (messages : List MessageRef)
    (haccept : g.rejects (.messagesList ["INBOX"]) = false)
    (hlist : g.listing = some messages) (hnone : firstTimeMessages messages = []) :
    (processEmails g r).2 = .timeout .processEmails 60000 ∧
      (processEmails g r).1.log = g.log ++ [.messagesList ["INBOX"]] ∧
      (processEmails g r).1.outbox = g.outbox ∧
      (processEmails g r).1.messages = g.messages := by
  unfold processEmails
  rw [listMessages_eq]
  simp [haccept, hlist, processListing, hnone, Gmail.record]

/-- Listing without candidates, at a concrete mailbox: a listing whose only message is already
labelled. -/
theorem no_candidates_delay_sample :
    (processEmails quietMailbox (1 / 2)).2 = .timeout .processEmails 60000 :=
  (no_candidates_delay quietMailbox (1 / 2) [⟨"m2", some ["VacationReplies"]⟩] rfl rfl rfl).1

/-- C10, the code at the failing input: the listing call is accepted and answers without a
`messages` field (an inbox without messages); `messages.filter` throws a `TypeError`, the `catch`
clause of line 152 only logs, and no timer is set: no reply is sent, but the next cycle is not
scheduled at 60000 ms either. -/
theorem empty_inbox_ends_loop :
    emptyInbox.rejects (.messagesList ["INBOX"]) = false ∧
      (processEmails emptyInbox (1 / 2)).2 = .nothing .typeError ∧
      (processEmails emptyInbox (1 / 2)).2 ≠ .timeout .processEmails 60000 ∧
      (processEmails emptyInbox (1 / 2)).1.log = [.messagesList ["INBOX"]] ∧
      (processEmails emptyInbox (1 / 2)).1.outbox = [] := by
  refine ⟨rfl, rfl, ?_, rfl, rfl⟩
  intro h
  have h2 : (processEmails emptyInbox (1 / 2)).2 = .nothing .typeError := rfl
  rw [h2] at h
  cases h

end MyMailApp
